import Mathlib

/-!
Verification development for the task-dashboard view pipeline (src/app.py).

The pipeline is embedded shallowly: spreadsheet cells are an inductive
`Cell`, a data frame is a column-name list together with rows of
key/value pairs, and each pandas operation used by the script is
translated to an explicit Lean function on this representation.
pandas missing values (NaN/NaT) are represented by `Cell.null`.
-/

namespace TaskDashboard

/-- A spreadsheet/DataFrame cell: a string, a number, a parsed date
(encoded as a natural number, ordered like the date), or a missing
value (pandas NaN/NaT). -/
inductive Cell where
  | str (s : String)
  | num (n : Int)
  | date (d : Nat)
  | null
deriving DecidableEq, Repr

/-- One row: an association list from column name to cell, in column order. -/
abbrev Row := List (String × Cell)

/-- A data frame: ordered column names plus the rows. -/
structure DF where
  cols : List String
  rows : List Row
deriving DecidableEq, Repr

/-- Reading a cell of a row by column name (first matching key); a
missing key reads as `Cell.null`, matching pandas NaN for an absent
value. -/
def lookupCell : Row → String → Cell
  | [], _ => Cell.null
  | kv :: t, c => if kv.1 = c then kv.2 else lookupCell t c

/-- The keys of a row, in order. -/
def rowKeys (r : Row) : List String := r.map Prod.fst

/-- Rectangularity: every row's keys are exactly the frame's columns.
`pd.DataFrame(records)` produces rectangular frames, and every pipeline
step preserves this. -/
def Rect (df : DF) : Prop := ∀ r ∈ df.rows, rowKeys r = df.cols

/-- Column set of `pd.DataFrame(records)`: the union of the records'
keys in first-appearance order. -/
def colUnion (records : List Row) : List String :=
  records.foldl (fun acc r => acc ++ (rowKeys r).filter (fun k => !acc.contains k)) []

/-- Reindex one record over a fixed column list; keys the record lacks
become `Cell.null` (pandas fills NaN). -/
def reindexRow (cols : List String) (r : Row) : Row :=
  cols.map (fun c => (c, lookupCell r c))

/-- Models `pd.DataFrame(records)` (src/app.py line 101): columns are the
union of keys, every row is reindexed over them. -/
def toDF (records : List Row) : DF :=
  ⟨colUnion records, records.map (reindexRow (colUnion records))⟩

/-- Whitespace stripping (models Python str.strip / pandas .str.strip()):
drop whitespace characters from both ends. Defined over the character
list so that it reduces by kernel computation. -/
def strip (s : String) : String :=
  String.mk (((s.data.dropWhile Char.isWhitespace).reverse.dropWhile Char.isWhitespace).reverse)

/-- ASCII lowercasing (models Python str.lower / pandas .str.lower()),
over the character list so that it reduces by kernel computation. -/
def lower (s : String) : String :=
  String.mk (s.data.map Char.toLower)

/-- Lexicographic code-point comparison of character lists (the order
Python sorted() uses on strings), as a Bool so that it reduces by kernel
computation. -/
def charListLe : List Char → List Char → Bool
  | [], _ => true
  | _ :: _, [] => false
  | a :: as, b :: bs =>
    if a < b then true
    else if b < a then false
    else charListLe as bs

/-- String comparison used by sorted() in the filter-option builders. -/
def strLe (a b : String) : Bool := charListLe a.data b.data

/-- Split a character list on a separator (models str.split for the one
separator the date parser needs). -/
def splitOnChar (sep : Char) : List Char → List (List Char)
  | [] => [[]]
  | c :: rest =>
    match splitOnChar sep rest with
    | [] => [[c]]
    | h :: t => if c = sep then [] :: h :: t else (c :: h) :: t

/-- Parse a non-empty all-digit character list as a natural number. -/
def charsToNat? (l : List Char) : Option Nat :=
  if l ≠ [] ∧ l.all Char.isDigit then
    some (l.foldl (fun n c => n * 10 + (c.toNat - 48)) 0)
  else none

/-- Models `df.columns = [str(c).strip() for c in df.columns]`
(src/app.py line 104): column names are trimmed; row keys are renamed in
step so that lookups stay consistent (pandas columns are positional, so
renaming never touches the data). -/
def trimColsDF (df : DF) : DF :=
  ⟨df.cols.map strip, df.rows.map (fun r => r.map (fun kv => (strip kv.1, kv.2)))⟩

/-- Apply a cell transformation to the entries of one column of a row. -/
def transRow (c : String) (f : Cell → Cell) (r : Row) : Row :=
  r.map (fun kv => if kv.1 = c then (kv.1, f kv.2) else kv)

/-- Models the column assignment `df[col] = f(df[col])`: every row's cell
in column `c` is replaced by `f` of it. -/
def transformCol (df : DF) (c : String) (f : Cell → Cell) : DF :=
  ⟨df.cols, df.rows.map (transRow c f)⟩

/-- Models a `for col in L: if col in df.columns: df[col] = f(df[col])`
loop (src/app.py lines 107-114). -/
def applyCols (L : List String) (f : Cell → Cell) (df : DF) : DF :=
  L.foldl (fun d c => if c ∈ d.cols then transformCol d c f else d) df

/-- Row-level view of `applyCols`: the same column loop applied to a
single row (used to reason about `applyCols` one row at a time). -/
def applyRow (L : List String) (cols : List String) (f : Cell → Cell) (r : Row) : Row :=
  L.foldl (fun r' c => if c ∈ cols then transRow c f r' else r') r

/-- The text columns cleaned by `load_tasks` (src/app.py line 107). -/
def TEXT_COLS : List String :=
  ["Task", "Owner", "Project", "Status", "Priority", "Notes", "Task ID",
   "Blockers", "Project Team", "Latest Update"]

/-- The date columns parsed by `load_tasks` (src/app.py line 112). -/
def DATE_COLS : List String :=
  ["Due Date", "Created At", "Updated At", "StartDate", "Deadline"]

/-- Models pandas `Series.astype(str)` elementwise: a string stays
itself, a number prints, and a missing value (NaN) becomes the string
"nan" — not the empty string. -/
def astypeStr : Cell → String
  | .str s => s
  | .num n => toString n
  | .date d => toString d
  | .null => "nan"

/-- Models `.fillna(fill)` on a column that `astype(str)` has already
cast to strings: such a column has no missing values left, so the call
replaces nothing and is the identity. -/
def fillnaStr (_fill : String) (s : String) : String :=
  s

/-- Models `df[col].astype(str).fillna("").str.strip()`
(src/app.py line 109), in exactly that order. -/
def textCellClean (c : Cell) : Cell :=
  Cell.str (strip (fillnaStr "" (astypeStr c)))

/-- Models the ISO-format (`YYYY-MM-DD`) path of the pandas date parser:
four-digit year, month 1..12, day 1..31, encoded as y*10000+m*100+d.
Anything else is unparseable here. -/
def parseISODate (s : String) : Option Nat :=
  match splitOnChar (Char.ofNat 45) s.data with
  | [y, m, d] =>
    match charsToNat? y, charsToNat? m, charsToNat? d with
    | some y', some m', some d' =>
      if y.length = 4 ∧ 1 ≤ m' ∧ m' ≤ 12 ∧ 1 ≤ d' ∧ d' ≤ 31 then
        some (y' * 10000 + m' * 100 + d')
      else none
    | _, _, _ => none
  | _ => none

/-- Models `pd.to_datetime(·, errors="coerce")` elementwise: a missing
value stays missing (NaT), an already-parsed date stays, a number is the
numeric-epoch path, and a string parses via the ISO format or coerces to
none. It is a total function: with errors="coerce" a parse failure never
raises, it only yields NaT. -/
def to_datetime : Cell → Option Nat
  | .null => none
  | .date d => some d
  | .num n => some n.toNat
  | .str s => parseISODate (strip s)

/-- Models `df[col] = pd.to_datetime(df[col], errors="coerce")` on one
cell (src/app.py line 114): the parsed date, or NaT on failure. -/
def dateCellClean (c : Cell) : Cell :=
  match to_datetime c with
  | some d => Cell.date d
  | none => Cell.null

/-- Models `load_tasks` (src/app.py lines 101-116) after the fetch:
build the frame, trim column names, clean the text columns present,
parse the date columns present. -/
def load_tasks (records : List Row) : DF :=
  applyCols DATE_COLS dateCellClean
    (applyCols TEXT_COLS textCellClean (trimColsDF (toDF records)))

/-- Models `count_status` (src/app.py lines 118-121): number of rows
whose Status, cast to string, trimmed and lowercased, equals the
lowercased needle; 0 when the Status column is absent. -/
def count_status (df : DF) (status_value : String) : Nat :=
  if "Status" ∈ df.cols then
    (df.rows.filter
      (fun r => lower (strip (astypeStr (lookupCell r "Status"))) == lower status_value)).length
  else 0

/-- Reading a cell as text, the way the spec speaks of "the record's
Status value" for a normalized record: the string it holds (non-string
cells, which normalization rules out in text columns, read as empty). -/
def cellText : Cell → String
  | Cell.str s => s
  | _ => ""

/-- Stated from the spec's words for countByStatus: the number of records
whose Status value, trimmed and compared case-insensitively, equals the
needle, and 0 when the Status column is absent. Compared against
`count_status` as a refinement check. -/
def specCountByStatus (df : DF) (v : String) : Nat :=
  if "Status" ∈ df.cols then
    (df.rows.filter
      (fun r => lower (strip (cellText (lookupCell r "Status"))) == lower v)).length
  else 0

/-- String cells of one column, missing values dropped. Models
`df[c].dropna()` read off as plain values: `dropna` removes NaN (our
`Cell.null`) and nothing else; on normalized data every remaining cell
of a filter column is a string. -/
def colStrValues (df : DF) (c : String) : List String :=
  df.rows.filterMap (fun r =>
    match lookupCell r c with
    | Cell.str s => some s
    | _ => none)

/-- Models the filter-option builders (src/app.py lines 146-148), e.g.
`sorted(df["Owner"].dropna().unique().tolist()) if "Owner" in df.columns
else []`: the sorted de-duplicated non-missing values, or `[]` when the
column is absent. -/
def vocabulary (df : DF) (c : String) : List String :=
  if c ∈ df.cols then
    List.insertionSort (fun a b => strLe a b = true) (colStrValues df c).dedup
  else []

/-- Models `Series.isin(sel)` on one cell: membership of the value in the
selection; a missing value is in nothing. -/
def cellIsin (c : Cell) (sel : List String) : Bool :=
  match c with
  | Cell.str s => sel.contains s
  | _ => false

/-- Models one filter block (src/app.py lines 171-178), e.g.
`if "Owner" in filtered.columns and owner_filter: filtered =
filtered[filtered["Owner"].isin(owner_filter)]`. An empty selection list
is falsy in Python, so the block is skipped and the frame passes through
unchanged. -/
def filterCol (df : DF) (c : String) (sel : List String) : DF :=
  if c ∈ df.cols ∧ sel ≠ [] then
    ⟨df.cols, df.rows.filter (fun r => cellIsin (lookupCell r c) sel)⟩
  else df

/-- Models the whole filter section (src/app.py lines 169-178): Owner,
then Project, then Status. `df.copy()` makes the step pure; the input
frame is never mutated. -/
def applyFilters (df : DF) (owner_filter project_filter status_filter : List String) : DF :=
  filterCol (filterCol (filterCol df "Owner" owner_filter)
    "Project" project_filter) "Status" status_filter

/-- The preferred display order (src/app.py lines 202-206). -/
def preferred_order : List String :=
  ["Task", "Owner", "Project", "Status", "Task ID",
   "StartDate", "Deadline", "Due Date",
   "Latest Update", "Blockers", "Project Team", "Priority", "Notes"]

/-- Models `existing = [c for c in preferred_order if c in filtered.columns]`
(src/app.py line 207). -/
def existingOf (df : DF) : List String :=
  preferred_order.filter (fun c => c ∈ df.cols)

/-- Models `rest = [c for c in filtered.columns if c not in existing]`
(src/app.py line 208). -/
def restOf (df : DF) : List String :=
  df.cols.filter (fun c => c ∉ existingOf df)

/-- Models `display_cols = existing + rest` (src/app.py line 209). -/
def display_cols (df : DF) : List String :=
  existingOf df ++ restOf df

/-- Models the sort-column choice (src/app.py lines 214-218): the first
of Deadline, Due Date, StartDate present among the displayed columns. -/
def sort_col (cols : List String) : Option String :=
  ["Deadline", "Due Date", "StartDate"].find? (fun c => cols.contains c)

/-- The sort key of a row for a date column: the parsed date, or none
for NaT / non-date cells (pandas sorts NaT as missing). -/
def dateKey (c : String) (r : Row) : Option Nat :=
  match lookupCell r c with
  | Cell.date d => some d
  | _ => none

/-- Key comparison used by ascending, `na_position="last"` sorting:
present dates compare numerically and a missing key goes after every
present one. -/
def keyLE (a b : Option Nat) : Bool :=
  match a, b with
  | some x, some y => x ≤ y
  | _, none => true
  | none, some _ => false

/-- The contract of `sort_values(by=[c], ascending=True,
na_position="last")` with the default kind="quicksort" (src/app.py
line 221): the output is some permutation of the rows whose keys are
ascending with missing keys last. pandas documents only mergesort and
stable as stable kinds, so the default promises nothing about the
relative order of equal keys; any output satisfying this contract is a
possible result. -/
def sortValuesContract (key : Row → Option Nat) (input output : List Row) : Prop :=
  output.Perm input ∧ output.Chain' (fun a b => keyLE (key a) (key b) = true)

/-- The sort step of the display table (src/app.py lines 214-221) as a
relation: if one of the date columns is displayed, the rows are sorted
by it under the sort_values contract; otherwise the order is untouched. -/
def displaySorted (df : DF) (output : List Row) : Prop :=
  match sort_col (display_cols df) with
  | some c => sortValuesContract (dateKey c) df.rows output
  | none => output = df.rows

/-- Models `df.empty` (src/app.py line 139): true when either axis has
length zero. -/
def dfEmpty (df : DF) : Bool :=
  df.rows.isEmpty || df.cols.isEmpty

/-- The derived state shown by one successful render: the four counters
(src/app.py lines 183-192), the three filter vocabularies (lines
146-148), and the displayed columns and (pre-sort) rows of the filtered
frame. -/
structure DashboardView where
  total : Nat
  blocked : Nat
  in_progress : Nat
  done : Nat
  owners : List String
  projects : List String
  statuses : List String
  table_cols : List String
  table_rows : List Row
deriving DecidableEq, Repr

/-- Outcome of one render cycle: a load failure (the script shows an
error and stops), an empty result (the script shows "No tasks found"
and stops before any derived state is built), or a dashboard. -/
inductive RenderResult where
  | sourceError (msg : String)
  | emptyResult
  | dashboard (view : DashboardView)
deriving DecidableEq, Repr

/-- Models one render cycle of the script (src/app.py lines 126-223):
a failed fetch stops with an error; an empty frame stops at line 139-141
with no counters, vocabularies or table; otherwise the filters are
applied and the counters are computed over the filtered frame. -/
def renderCycle (fetch : Except String (List Row))
    (owner_filter project_filter status_filter : List String) : RenderResult :=
  match fetch with
  | Except.error m => RenderResult.sourceError m
  | Except.ok records =>
    let df := load_tasks records
    if dfEmpty df then RenderResult.emptyResult
    else
      let filtered := applyFilters df owner_filter project_filter status_filter
      RenderResult.dashboard
        { total := filtered.rows.length
          blocked := count_status filtered "Blocked"
          in_progress := count_status filtered "In Progress"
          done := count_status filtered "Done"
          owners := vocabulary df "Owner"
          projects := vocabulary df "Project"
          statuses := vocabulary df "Status"
          table_cols := display_cols filtered
          table_rows := filtered.rows }

/-! ### Structural lemmas about the embedding -/

@[simp] lemma lookupCell_nil (c : String) : lookupCell [] c = Cell.null := rfl

@[simp] lemma lookupCell_cons (kv : String × Cell) (t : Row) (c : String) :
    lookupCell (kv :: t) c = if kv.1 = c then kv.2 else lookupCell t c := rfl

@[simp] lemma transRow_nil (c : String) (f : Cell → Cell) : transRow c f [] = [] := rfl

@[simp] lemma transRow_cons (c : String) (f : Cell → Cell) (kv : String × Cell) (t : Row) :
    transRow c f (kv :: t) = (if kv.1 = c then (kv.1, f kv.2) else kv) :: transRow c f t := rfl

@[simp] lemma rowKeys_nil : rowKeys [] = [] := rfl

@[simp] lemma rowKeys_cons (kv : String × Cell) (t : Row) :
    rowKeys (kv :: t) = kv.1 :: rowKeys t := rfl

lemma applyRow_nil (cols : List String) (f : Cell → Cell) (r : Row) :
    applyRow [] cols f r = r := rfl

lemma applyRow_cons (c : String) (L cols : List String) (f : Cell → Cell) (r : Row) :
    applyRow (c :: L) cols f r =
      applyRow L cols f (if c ∈ cols then transRow c f r else r) := rfl

lemma applyCols_nil (f : Cell → Cell) (df : DF) : applyCols [] f df = df := rfl

lemma applyCols_cons (c : String) (L : List String) (f : Cell → Cell) (df : DF) :
    applyCols (c :: L) f df =
      applyCols L f (if c ∈ df.cols then transformCol df c f else df) := rfl

lemma lookupCell_eq_null_of_not_mem {r : Row} {c : String} (h : c ∉ rowKeys r) :
    lookupCell r c = Cell.null := by
  induction r with
  | nil => rfl
  | cons kv t ih =>
    have hne : kv.1 ≠ c := fun he => h (by simp [he])
    have ht : c ∉ rowKeys t := fun hm => h (by simp [hm])
    simp [hne, ih ht]

lemma rowKeys_transRow (c : String) (f : Cell → Cell) (r : Row) :
    rowKeys (transRow c f r) = rowKeys r := by
  induction r with
  | nil => rfl
  | cons kv t ih =>
    by_cases h : kv.1 = c <;> simp [h, ih]

lemma lookupCell_transRow_self {c : String} (f : Cell → Cell) {r : Row}
    (h : c ∈ rowKeys r) :
    lookupCell (transRow c f r) c = f (lookupCell r c) := by
  induction r with
  | nil => simp at h
  | cons kv t ih =>
    by_cases hk : kv.1 = c
    · simp [hk]
    · have ht : c ∈ rowKeys t := by
        rcases (by simpa using h) with h1 | h1
        · exact absurd h1.symm hk
        · exact h1
      simp [hk, ih ht]

lemma lookupCell_transRow_ne {x c : String} (f : Cell → Cell) (r : Row)
    (h : x ≠ c) :
    lookupCell (transRow c f r) x = lookupCell r x := by
  induction r with
  | nil => rfl
  | cons kv t ih =>
    by_cases hk : kv.1 = c <;> by_cases hx : kv.1 = x
    · exact absurd (hx.symm.trans hk) h
    · simp [hk, hx, Ne.symm h, ih]
    · simp [hk, hx, h]
    · simp [hk, hx, ih]

lemma rowKeys_applyRow (L cols : List String) (f : Cell → Cell) (r : Row) :
    rowKeys (applyRow L cols f r) = rowKeys r := by
  induction L generalizing r with
  | nil => rfl
  | cons c L ih =>
    rw [applyRow_cons, ih]
    by_cases h : c ∈ cols
    · rw [if_pos h, rowKeys_transRow]
    · rw [if_neg h]

lemma lookupCell_applyRow_of_not_mem {x : String} {L : List String}
    (cols : List String) (f : Cell → Cell) (r : Row) (h : x ∉ L) :
    lookupCell (applyRow L cols f r) x = lookupCell r x := by
  induction L generalizing r with
  | nil => rfl
  | cons c L ih =>
    have hxc : x ≠ c := fun he => h (by simp [he])
    have hxL : x ∉ L := fun hm => h (by simp [hm])
    rw [applyRow_cons]
    by_cases hc : c ∈ cols
    · rw [if_pos hc, ih _ hxL, lookupCell_transRow_ne f r hxc]
    · rw [if_neg hc]
      exact ih r hxL

lemma lookupCell_applyRow_of_mem {x : String} {L : List String}
    {cols : List String} (f : Cell → Cell) {r : Row}
    (hnd : L.Nodup) (hL : x ∈ L) (hc : x ∈ cols) (hk : x ∈ rowKeys r) :
    lookupCell (applyRow L cols f r) x = f (lookupCell r x) := by
  induction L generalizing r with
  | nil => simp at hL
  | cons c L ih =>
    have hndL : L.Nodup := (List.nodup_cons.mp hnd).2
    have hcL : c ∉ L := (List.nodup_cons.mp hnd).1
    by_cases hxc : x = c
    · subst hxc
      rw [applyRow_cons, if_pos hc,
        lookupCell_applyRow_of_not_mem cols f _ hcL]
      exact lookupCell_transRow_self f hk
    · have hxL : x ∈ L := by
        rcases List.mem_cons.mp hL with h | h
        · exact absurd h hxc
        · exact h
      rw [applyRow_cons]
      by_cases hcc : c ∈ cols
      · rw [if_pos hcc,
          ih hndL hxL (by rw [rowKeys_transRow]; exact hk),
          lookupCell_transRow_ne f r hxc]
      · rw [if_neg hcc]
        exact ih hndL hxL hk

lemma applyCols_cols (L : List String) (f : Cell → Cell) (df : DF) :
    (applyCols L f df).cols = df.cols := by
  induction L generalizing df with
  | nil => rfl
  | cons c L ih =>
    rw [applyCols_cons]
    by_cases h : c ∈ df.cols
    · rw [if_pos h, ih]
      rfl
    · rw [if_neg h, ih]

lemma applyCols_rows (L : List String) (f : Cell → Cell) (df : DF) :
    (applyCols L f df).rows = df.rows.map (applyRow L df.cols f) := by
  induction L generalizing df with
  | nil =>
    rw [applyCols_nil]
    induction df.rows with
    | nil => rfl
    | cons a t iht =>
      simp only [List.map_cons, applyRow_nil]
      rw [← iht]
  | cons c L ih =>
    rw [applyCols_cons]
    by_cases h : c ∈ df.cols
    · rw [if_pos h, ih]
      simp only [transformCol, List.map_map]
      apply List.map_congr_left
      intro r _
      show applyRow L df.cols f (transRow c f r) = applyRow (c :: L) df.cols f r
      rw [applyRow_cons, if_pos h]
    · rw [if_neg h, ih]
      apply List.map_congr_left
      intro r _
      rw [applyRow_cons, if_neg h]

lemma rowKeys_reindexRow (cols : List String) (r : Row) :
    rowKeys (reindexRow cols r) = cols := by
  simp only [rowKeys, reindexRow, List.map_map]
  rw [show (Prod.fst ∘ fun c => (c, lookupCell r c)) = id from rfl, List.map_id]

lemma rect_toDF (records : List Row) : Rect (toDF records) := by
  intro r hr
  rcases List.mem_map.mp hr with ⟨r0, _, rfl⟩
  exact rowKeys_reindexRow _ _

lemma rowKeys_trimRow (r : Row) :
    rowKeys (r.map (fun kv => (strip kv.1, kv.2))) = (rowKeys r).map strip := by
  simp [rowKeys, List.map_map, Function.comp]

lemma rect_trimColsDF {df : DF} (h : Rect df) : Rect (trimColsDF df) := by
  intro r hr
  rcases List.mem_map.mp hr with ⟨r0, hr0, rfl⟩
  rw [rowKeys_trimRow, h r0 hr0]
  rfl

lemma rect_applyCols {df : DF} (L : List String) (f : Cell → Cell) (h : Rect df) :
    Rect (applyCols L f df) := by
  intro r hr
  rw [applyCols_rows] at hr
  rcases List.mem_map.mp hr with ⟨r0, hr0, rfl⟩
  rw [applyCols_cols, rowKeys_applyRow]
  exact h r0 hr0

lemma rect_load_tasks (records : List Row) : Rect (load_tasks records) :=
  rect_applyCols _ _ (rect_applyCols _ _ (rect_trimColsDF (rect_toDF records)))

lemma load_tasks_cols (records : List Row) :
    (load_tasks records).cols = (trimColsDF (toDF records)).cols := by
  unfold load_tasks
  rw [applyCols_cols, applyCols_cols]

lemma text_date_disjoint : ∀ c ∈ TEXT_COLS, c ∉ DATE_COLS := by decide

lemma text_nodup : TEXT_COLS.Nodup := by decide

lemma date_nodup : DATE_COLS.Nodup := by decide

/-- Shape of a normalized text cell: in every present designated text
column, every row of `load_tasks` holds a string, namely the trimmed
`astype(str)` image of the pre-cleaning cell. -/
lemma load_tasks_text_cell {records : List Row} {c : String}
    (hc : c ∈ TEXT_COLS) (hcol : c ∈ (load_tasks records).cols)
    {r : Row} (hr : r ∈ (load_tasks records).rows) :
    ∃ s, lookupCell r c = Cell.str s := by
  set df1 := trimColsDF (toDF records) with hdf1
  have hrect1 : Rect df1 := rect_trimColsDF (rect_toDF records)
  have hcol1 : c ∈ df1.cols := by
    rw [← load_tasks_cols records]
    exact hcol
  unfold load_tasks at hr
  rw [applyCols_rows, applyCols_rows, applyCols_cols, List.map_map] at hr
  rcases List.mem_map.mp hr with ⟨r1, hr1, rfl⟩
  rw [Function.comp_apply]
  rw [lookupCell_applyRow_of_not_mem _ _ _ (text_date_disjoint c hc)]
  rw [lookupCell_applyRow_of_mem textCellClean text_nodup hc hcol1
    (by rw [hrect1 r1 hr1]; exact hcol1)]
  exact ⟨_, rfl⟩

/-- Shape of a normalized date cell: in every designated date column,
every row of `load_tasks` holds a parsed date or a missing value. -/
lemma load_tasks_date_cell {records : List Row} {c : String}
    (hc : c ∈ DATE_COLS) {r : Row} (hr : r ∈ (load_tasks records).rows) :
    lookupCell r c = Cell.null ∨ ∃ d, lookupCell r c = Cell.date d := by
  by_cases hcol : c ∈ (load_tasks records).cols
  · set df2 := applyCols TEXT_COLS textCellClean (trimColsDF (toDF records)) with hdf2
    have hrect2 : Rect df2 :=
      rect_applyCols _ _ (rect_trimColsDF (rect_toDF records))
    have hcol2 : c ∈ df2.cols := by
      have : (load_tasks records).cols = df2.cols := by
        unfold load_tasks
        rw [applyCols_cols]
      rw [← this]
      exact hcol
    unfold load_tasks at hr
    rw [applyCols_rows] at hr
    rcases List.mem_map.mp hr with ⟨r2, hr2, rfl⟩
    rw [lookupCell_applyRow_of_mem dateCellClean date_nodup hc hcol2
      (by rw [hrect2 r2 hr2]; exact hcol2)]
    unfold dateCellClean
    cases to_datetime (lookupCell r2 c) with
    | none => exact Or.inl rfl
    | some d => exact Or.inr ⟨d, rfl⟩
  · left
    apply lookupCell_eq_null_of_not_mem
    rw [rect_load_tasks records r hr]
    exact hcol

/-- Membership in a vocabulary: exactly the string values observed in a
present column. -/
lemma mem_vocabulary {df : DF} {c : String} {s : String} :
    s ∈ vocabulary df c ↔
      c ∈ df.cols ∧ ∃ r ∈ df.rows, lookupCell r c = Cell.str s := by
  unfold vocabulary
  by_cases h : c ∈ df.cols
  · rw [if_pos h]
    rw [List.mem_insertionSort, List.mem_dedup]
    unfold colStrValues
    rw [List.mem_filterMap]
    constructor
    · rintro ⟨r, hr, hs⟩
      refine ⟨h, r, hr, ?_⟩
      cases hcell : lookupCell r c <;> rw [hcell] at hs <;> simp at hs
      rw [hs]
    · rintro ⟨_, r, hr, hs⟩
      exact ⟨r, hr, by rw [hs]⟩
  · rw [if_neg h]
    simp [h]

lemma charListLe_total (a b : List Char) :
    charListLe a b = true ∨ charListLe b a = true := by
  induction a generalizing b with
  | nil => exact Or.inl rfl
  | cons x xs ih =>
    cases b with
    | nil => exact Or.inr rfl
    | cons y ys =>
      by_cases hxy : x < y
      · exact Or.inl (by simp [charListLe, hxy])
      · by_cases hyx : y < x
        · exact Or.inr (by simp [charListLe, hyx])
        · rcases ih ys with h | h
          · exact Or.inl (by simp [charListLe, hxy, hyx, h])
          · exact Or.inr (by simp [charListLe, hxy, hyx, h])

lemma charListLe_trans {a b c : List Char}
    (h1 : charListLe a b = true) (h2 : charListLe b c = true) :
    charListLe a c = true := by
  induction a generalizing b c with
  | nil => rfl
  | cons x xs ih =>
    cases b with
    | nil => simp [charListLe] at h1
    | cons y ys =>
      cases c with
      | nil => simp [charListLe] at h2
      | cons z zs =>
        by_cases hxy : x < y
        · by_cases hyz : y < z
          · simp [charListLe, lt_trans hxy hyz]
          · by_cases hzy : z < y
            · simp [charListLe, hyz, hzy] at h2
            · have : y = z := le_antisymm (not_lt.mp hzy) (not_lt.mp hyz)
              simp [charListLe, this ▸ hxy]
        · by_cases hyx : y < x
          · simp [charListLe, hxy, hyx] at h1
          · have hx : x = y := le_antisymm (not_lt.mp hyx) (not_lt.mp hxy)
            rw [charListLe] at h1
            rw [if_neg hxy, if_neg hyx] at h1
            by_cases hyz : y < z
            · simp [charListLe, hx ▸ hyz]
            · by_cases hzy : z < y
              · simp [charListLe, hyz, hzy] at h2
              · have hy : y = z := le_antisymm (not_lt.mp hzy) (not_lt.mp hyz)
                rw [charListLe] at h2
                rw [if_neg hyz, if_neg hzy] at h2
                have hxz : ¬ x < z := by rw [hx, hy]; exact lt_irrefl z
                have hzx : ¬ z < x := by rw [hx, hy]; exact lt_irrefl z
                rw [charListLe, if_neg hxz, if_neg hzx]
                exact ih h1 h2

lemma vocabulary_sorted (df : DF) (c : String) :
    (vocabulary df c).Sorted (fun a b => strLe a b = true) := by
  haveI : IsTotal String (fun a b => strLe a b = true) :=
    ⟨fun a b => charListLe_total a.data b.data⟩
  haveI : IsTrans String (fun a b => strLe a b = true) :=
    ⟨fun _ _ _ h1 h2 => charListLe_trans h1 h2⟩
  unfold vocabulary
  by_cases h : c ∈ df.cols
  · rw [if_pos h]
    exact List.sorted_insertionSort _ _
  · rw [if_neg h]
    exact List.sorted_nil

lemma vocabulary_nodup (df : DF) (c : String) :
    (vocabulary df c).Nodup := by
  unfold vocabulary
  by_cases h : c ∈ df.cols
  · rw [if_pos h]
    exact ((List.perm_insertionSort _ _).symm).nodup (List.nodup_dedup _)
  · rw [if_neg h]
    exact List.nodup_nil

lemma vocabulary_absent {df : DF} {c : String} (h : c ∉ df.cols) :
    vocabulary df c = [] := by
  unfold vocabulary
  rw [if_neg h]

lemma contains_iff_mem {l : List String} {a : String} :
    l.contains a = true ↔ a ∈ l := by
  simp [List.contains_eq_any_beq, List.any_eq_true, beq_iff_eq, eq_comm]

lemma filterCol_empty (df : DF) (c : String) : filterCol df c [] = df := by
  unfold filterCol
  simp

lemma filterCol_absent {df : DF} {c : String} (sel : List String)
    (h : c ∉ df.cols) : filterCol df c sel = df := by
  unfold filterCol
  rw [if_neg]
  rintro ⟨h1, _⟩
  exact h h1

/-- Selecting a column's entire vocabulary filters nothing away: every
normalized cell of a present text column is a string that occurs in the
vocabulary. -/
lemma filterCol_vocabulary (records : List Row) {c : String} (hc : c ∈ TEXT_COLS) :
    filterCol (load_tasks records) c (vocabulary (load_tasks records) c) =
      load_tasks records := by
  set df := load_tasks records with hdf
  unfold filterCol
  by_cases h : c ∈ df.cols ∧ vocabulary df c ≠ []
  · rw [if_pos h]
    have hall : ∀ r ∈ df.rows, cellIsin (lookupCell r c) (vocabulary df c) = true := by
      intro r hr
      obtain ⟨s, hs⟩ := load_tasks_text_cell hc h.1 hr
      rw [hs]
      show (vocabulary df c).contains s = true
      rw [contains_iff_mem]
      exact mem_vocabulary.mpr ⟨h.1, r, hr, hs⟩
    rw [List.filter_eq_self.mpr hall]
  · rw [if_neg h]

lemma count_status_absent {df : DF} {v : String} (h : "Status" ∉ df.cols) :
    count_status df v = 0 := by
  unfold count_status
  rw [if_neg h]

lemma count_status_eq_spec {df : DF} (v : String)
    (h : "Status" ∈ df.cols → ∀ r ∈ df.rows, ∃ s, lookupCell r "Status" = Cell.str s) :
    count_status df v = specCountByStatus df v := by
  unfold count_status specCountByStatus
  by_cases hc : "Status" ∈ df.cols
  · rw [if_pos hc, if_pos hc]
    congr 1
    apply List.filter_congr
    intro r hr
    obtain ⟨s, hs⟩ := h hc r hr
    rw [hs]
    rfl
  · rw [if_neg hc, if_neg hc]

lemma count_status_lower_congr {df : DF} {v w : String} (h : lower v = lower w) :
    count_status df v = count_status df w := by
  unfold count_status
  by_cases hc : "Status" ∈ df.cols
  · rw [if_pos hc, if_pos hc]
    congr 1
    apply List.filter_congr
    intro r _
    rw [h]
  · rw [if_neg hc, if_neg hc]

lemma applyFilters_status_only (df : DF) (sel : List String) :
    applyFilters df [] [] sel = filterCol df "Status" sel := by
  unfold applyFilters
  rw [filterCol_empty, filterCol_empty]

lemma filter_status_le_count {df : DF} {v : String}
    (hv : strip v = v) (hc : "Status" ∈ df.cols) :
    (applyFilters df [] [] [v]).rows.length ≤ count_status df v := by
  rw [applyFilters_status_only]
  unfold filterCol count_status
  rw [if_pos ⟨hc, by simp⟩, if_pos hc]
  rw [← List.countP_eq_length_filter, ← List.countP_eq_length_filter]
  apply List.countP_mono_left
  intro r _ hr
  cases hcell : lookupCell r "Status" with
  | str s =>
    rw [hcell] at hr
    have hmem : s ∈ [v] := contains_iff_mem.mp hr
    have hsv : s = v := by simpa using hmem
    show (lower (strip s) == lower v) = true
    rw [hsv, hv]
    exact beq_self_eq_true _
  | num n =>
    rw [hcell] at hr
    simp [cellIsin] at hr
  | date d =>
    rw [hcell] at hr
    simp [cellIsin] at hr
  | null =>
    rw [hcell] at hr
    simp [cellIsin] at hr

lemma keyLE_trans {a b c : Option Nat}
    (h1 : keyLE a b = true) (h2 : keyLE b c = true) : keyLE a c = true := by
  cases a <;> cases b <;> cases c <;> simp_all [keyLE]
  omega

lemma mem_existingOf {df : DF} {c : String} :
    c ∈ existingOf df ↔ c ∈ preferred_order ∧ c ∈ df.cols := by
  simp [existingOf, List.mem_filter]

lemma mem_restOf {df : DF} {c : String} :
    c ∈ restOf df ↔ c ∈ df.cols ∧ c ∉ existingOf df := by
  simp [restOf, List.mem_filter]

/-! ### Claim theorems -/

/-- C1: for every normalized TaskSet and every filter column, an empty
selection list passes the frame through unchanged (empty selection means
"no filter", never "exclude everything"), and selecting a column's full
vocabulary is likewise the identity transform, both per column and for
the whole Owner/Project/Status filter chain. -/
theorem c1_empty_or_full_selection_identity (records : List Row) :
    (∀ c : String, filterCol (load_tasks records) c [] = load_tasks records) ∧
    applyFilters (load_tasks records) [] [] [] = load_tasks records ∧
    applyFilters (load_tasks records)
        (vocabulary (load_tasks records) "Owner")
        (vocabulary (load_tasks records) "Project")
        (vocabulary (load_tasks records) "Status") = load_tasks records := by
  refine ⟨fun c => filterCol_empty _ c, ?_, ?_⟩
  · unfold applyFilters
    rw [filterCol_empty, filterCol_empty, filterCol_empty]
  · unfold applyFilters
    rw [filterCol_vocabulary records (show "Owner" ∈ TEXT_COLS by decide),
      filterCol_vocabulary records (show "Project" ∈ TEXT_COLS by decide),
      filterCol_vocabulary records (show "Status" ∈ TEXT_COLS by decide)]

/-- C3: evaluation of the code at the failing input. A record whose
Owner cell is null normalizes to the string "nan", not the empty string:
astype(str) renders the missing value as "nan" before the (then
ineffective) fillna("") runs. -/
theorem c3_null_text_cell_becomes_nan :
    load_tasks [[("Owner", Cell.null)]] =
      ⟨["Owner"], [[("Owner", Cell.str "nan")]]⟩ ∧
    textCellClean Cell.null = Cell.str "nan" ∧
    Cell.str "nan" ≠ Cell.str "" := by
  refine ⟨by decide, rfl, by decide⟩

/-- C4 counterexample: the vocabulary built by the code keeps the empty
string. dropna() removes only missing values, and a normalized empty
text cell is the empty string, which then appears in the sorted
vocabulary — refuting "the empty string is never a member". -/
theorem c4_empty_string_in_vocabulary :
    "" ∈ vocabulary
      (load_tasks [[("Owner", Cell.str "")], [("Owner", Cell.str "alice")]]) "Owner" := by
  decide

/-- C4 amended: the vocabulary is the sorted, de-duplicated set of
string values observed in the column (the empty string included when
present, since dropna only removes missing values), and it is empty when
the column is absent. -/
theorem c4_vocabulary_sorted_dedup_values (records : List Row) (c : String) :
    (c ∉ (load_tasks records).cols → vocabulary (load_tasks records) c = []) ∧
    (vocabulary (load_tasks records) c).Sorted (fun a b => strLe a b = true) ∧
    (vocabulary (load_tasks records) c).Nodup ∧
    (∀ s : String, s ∈ vocabulary (load_tasks records) c ↔
      c ∈ (load_tasks records).cols ∧
        ∃ r ∈ (load_tasks records).rows, lookupCell r c = Cell.str s) :=
  ⟨fun h => vocabulary_absent h, vocabulary_sorted _ c, vocabulary_nodup _ c,
    fun _ => mem_vocabulary⟩

/-- Witness for C4's amended theorem at a concrete input: a frame
without an Owner column has the empty vocabulary. -/
theorem c4_vocabulary_witness :
    "Owner" ∉ (load_tasks [[("Task", Cell.str "t")]]).cols ∧
    vocabulary (load_tasks [[("Task", Cell.str "t")]]) "Owner" = [] :=
  ⟨by decide,
    (c4_vocabulary_sorted_dedup_values [[("Task", Cell.str "t")]] "Owner").1 (by decide)⟩

/-- C5: count_status agrees with the spec's description — the number of
records whose Status value, trimmed and compared case-insensitively,
equals the needle — and it returns 0 rather than failing when the Status
column is absent. -/
theorem c5_count_status_spec (records : List Row) (v : String) :
    count_status (load_tasks records) v = specCountByStatus (load_tasks records) v ∧
    ("Status" ∉ (load_tasks records).cols → count_status (load_tasks records) v = 0) :=
  ⟨count_status_eq_spec v
      (fun hc _ hr => load_tasks_text_cell (show "Status" ∈ TEXT_COLS by decide) hc hr),
    fun h => count_status_absent h⟩

/-- Witness for C5 at a concrete input: a frame without a Status column
counts zero. -/
theorem c5_count_status_witness :
    "Status" ∉ (load_tasks [[("Task", Cell.str "x")]]).cols ∧
    count_status (load_tasks [[("Task", Cell.str "x")]]) "Done" = 0 :=
  ⟨by decide, (c5_count_status_spec [[("Task", Cell.str "x")]] "Done").2 (by decide)⟩

/-- C6 counterexample: countByStatus does not equal the size of the
Status filter. The count compares case-insensitively while isin
filtering is exact, so a frame whose only Status is "DONE" counts 1 for
"Done" but filters to 0 rows; moreover a whitespace variant of the
needle changes the count (the needle itself is never stripped), so
counting "DONE " yields 0, not 1. -/
theorem c6_count_ne_filter_size :
    count_status (load_tasks [[("Status", Cell.str "DONE")]]) "Done" = 1 ∧
    (applyFilters (load_tasks [[("Status", Cell.str "DONE")]]) [] [] ["Done"]).rows.length = 0 ∧
    count_status (load_tasks [[("Status", Cell.str "DONE")]]) "DONE " = 0 :=
  ⟨by decide, by decide, by decide⟩

/-- C6 amended: countByStatus is invariant under case variants of the
needle, and for a whitespace-free needle it is an upper bound on (not
equal to) the size of the corresponding Status filter; equality fails
when Status values differ from the needle only in case, and trailing
whitespace on the needle is not normalized away. -/
theorem c6_count_case_invariant_ge_filter (records : List Row) (v w : String) :
    (lower v = lower w →
      count_status (load_tasks records) v = count_status (load_tasks records) w) ∧
    (strip v = v → "Status" ∈ (load_tasks records).cols →
      (applyFilters (load_tasks records) [] [] [v]).rows.length ≤
        count_status (load_tasks records) v) :=
  ⟨fun h => count_status_lower_congr h, fun hv hc => filter_status_le_count hv hc⟩

/-- Witness for C6's amended theorem at a concrete input. -/
theorem c6_amended_witness :
    count_status (load_tasks [[("Status", Cell.str "Done")]]) "DONE"
      = count_status (load_tasks [[("Status", Cell.str "Done")]]) "done" ∧
    (applyFilters (load_tasks [[("Status", Cell.str "Done")]]) [] [] ["DONE"]).rows.length ≤
      count_status (load_tasks [[("Status", Cell.str "Done")]]) "DONE" :=
  ⟨(c6_count_case_invariant_ge_filter [[("Status", Cell.str "Done")]] "DONE" "done").1
      (by decide),
    (c6_count_case_invariant_ge_filter [[("Status", Cell.str "Done")]] "DONE" "done").2
      (by decide) (by decide)⟩

/-- C7: in every designated date column, every normalized cell is a
parsed date or null (parse failure nulls only that cell and never
raises — the cleaning functions are total); the literal text "N/A"
parses to none and normalizes to null; and in any output admitted by the
sort contract, every null key comes after all non-null keys (a null key
is never `keyLE`-below a present one). -/
theorem c7_date_parse_coerce_nulls_last (records : List Row) (c : String) (r : Row) :
    c ∈ DATE_COLS → r ∈ (load_tasks records).rows →
    (lookupCell r c = Cell.null ∨ ∃ d, lookupCell r c = Cell.date d) ∧
    to_datetime (Cell.str "N/A") = none ∧
    dateCellClean (Cell.str "N/A") = Cell.null ∧
    (∀ (output : List Row) (k : Row → Option Nat),
      sortValuesContract k (load_tasks records).rows output →
        output.Pairwise (fun a b => keyLE (k a) (k b) = true)) := by
  intro hc hr
  refine ⟨load_tasks_date_cell hc hr, rfl, rfl, ?_⟩
  intro output k hsort
  haveI : IsTrans Row (fun a b => keyLE (k a) (k b) = true) :=
    ⟨fun _ _ _ h1 h2 => keyLE_trans h1 h2⟩
  exact List.chain'_iff_pairwise.mp hsort.2

/-- Witness for C7 at a concrete input: a Deadline cell reading "N/A"
loads as null. -/
theorem c7_witness :
    "Deadline" ∈ DATE_COLS ∧
    [("Deadline", Cell.null)] ∈ (load_tasks [[("Deadline", Cell.str "N/A")]]).rows ∧
    (lookupCell [("Deadline", Cell.null)] "Deadline" = Cell.null ∨
      ∃ d, lookupCell [("Deadline", Cell.null)] "Deadline" = Cell.date d) :=
  ⟨by decide, by decide,
    (c7_date_parse_coerce_nulls_last [[("Deadline", Cell.str "N/A")]] "Deadline"
      [("Deadline", Cell.null)] (by decide) (by decide)).1⟩

/-- C8: selectColumns outputs exactly the input's columns, each once
(given distinct input column names): the displayed column list is a
permutation of the frame's columns with no duplicates, and every
preferred-order column present in the input is indexed before every
non-preferred column. -/
theorem c8_display_cols_exact_once_preferred_first (df : DF) (h : df.cols.Nodup) :
    (display_cols df).Perm df.cols ∧
    (display_cols df).Nodup ∧
    ∀ c₁ ∈ preferred_order, c₁ ∈ df.cols →
      ∀ c₂ ∈ df.cols, c₂ ∉ preferred_order →
        List.indexOf c₁ (display_cols df) < List.indexOf c₂ (display_cols df) := by
  have hpn : preferred_order.Nodup := by decide
  have hne : (existingOf df).Nodup := hpn.filter _
  have hnr : (restOf df).Nodup := h.filter _
  have hdisj : (existingOf df).Disjoint (restOf df) := by
    intro a ha har
    exact (mem_restOf.mp har).2 ha
  have hnd : (display_cols df).Nodup := hne.append hnr hdisj
  have hmem : ∀ a, a ∈ display_cols df ↔ a ∈ df.cols := by
    intro a
    unfold display_cols
    rw [List.mem_append, mem_existingOf, mem_restOf]
    constructor
    · rintro (⟨_, h2⟩ | ⟨h1, _⟩)
      · exact h2
      · exact h1
    · intro hac
      by_cases he : a ∈ existingOf df
      · exact Or.inl (mem_existingOf.mp he)
      · exact Or.inr ⟨hac, he⟩
  refine ⟨(List.perm_ext_iff_of_nodup hnd h).mpr hmem, hnd, ?_⟩
  intro c₁ h1p h1c c₂ h2c h2p
  have h1e : c₁ ∈ existingOf df := mem_existingOf.mpr ⟨h1p, h1c⟩
  have h2e : c₂ ∉ existingOf df := fun hx => h2p (mem_existingOf.mp hx).1
  unfold display_cols
  rw [List.indexOf_append_of_mem h1e, List.indexOf_append_of_not_mem h2e]
  calc List.indexOf c₁ (existingOf df)
      < (existingOf df).length := List.indexOf_lt_length.mpr h1e
    _ ≤ (existingOf df).length + List.indexOf c₂ (restOf df) := Nat.le_add_right _ _

/-- Witness for C8 at a concrete input: with columns [Extra, Owner], the
preferred column Owner is displayed before the non-preferred Extra. -/
theorem c8_witness :
    (DF.mk ["Extra", "Owner"] []).cols.Nodup ∧
    (display_cols (DF.mk ["Extra", "Owner"] [])).Perm ["Extra", "Owner"] ∧
    List.indexOf "Owner" (display_cols (DF.mk ["Extra", "Owner"] [])) <
      List.indexOf "Extra" (display_cols (DF.mk ["Extra", "Owner"] [])) := by
  have h := c8_display_cols_exact_once_preferred_first (DF.mk ["Extra", "Owner"] []) (by decide)
  exact ⟨by decide, h.1,
    h.2.2 "Owner" (by decide) (by decide) "Extra" (by decide) (by decide)⟩

/-- C9: a successful fetch of zero rows reaches the distinct terminal
empty state: the render produces `emptyResult` (a state different from
every error state and every dashboard), which carries no table and no
vocabularies, and the counter computations on the empty TaskSet are all
zero. -/
theorem c9_empty_result_state (o p s : List String) (v c m : String)
    (view : DashboardView) :
    renderCycle (Except.ok []) o p s = RenderResult.emptyResult ∧
    (load_tasks []).rows.length = 0 ∧
    count_status (load_tasks []) v = 0 ∧
    vocabulary (load_tasks []) c = [] ∧
    RenderResult.emptyResult ≠ RenderResult.sourceError m ∧
    RenderResult.emptyResult ≠ RenderResult.dashboard view := by
  refine ⟨rfl, rfl, rfl, rfl, by simp, by simp⟩

/-- C10: on a non-empty frame the rendered dashboard computes all four
counters over the filtered TaskSet — Total is the number of rows
surviving applyFilters and Blocked / In Progress / Done are
count_status on that same filtered frame — while the vocabularies come
from the unfiltered frame. -/
theorem c10_counters_over_filtered (records : List Row) (o p s : List String)
    (h : dfEmpty (load_tasks records) = false) :
    renderCycle (Except.ok records) o p s = RenderResult.dashboard
      { total := (applyFilters (load_tasks records) o p s).rows.length
        blocked := count_status (applyFilters (load_tasks records) o p s) "Blocked"
        in_progress := count_status (applyFilters (load_tasks records) o p s) "In Progress"
        done := count_status (applyFilters (load_tasks records) o p s) "Done"
        owners := vocabulary (load_tasks records) "Owner"
        projects := vocabulary (load_tasks records) "Project"
        statuses := vocabulary (load_tasks records) "Status"
        table_cols := display_cols (applyFilters (load_tasks records) o p s)
        table_rows := (applyFilters (load_tasks records) o p s).rows } := by
  unfold renderCycle
  simp only [h, Bool.false_eq_true, if_false]

/-- Witness for C10 at a concrete input. -/
theorem c10_witness :
    dfEmpty (load_tasks [[("Status", Cell.str "Done")]]) = false ∧
    renderCycle (Except.ok [[("Status", Cell.str "Done")]]) [] [] [] =
      RenderResult.dashboard
        { total := (applyFilters (load_tasks [[("Status", Cell.str "Done")]]) [] [] []).rows.length
          blocked := count_status (applyFilters (load_tasks [[("Status", Cell.str "Done")]]) [] [] []) "Blocked"
          in_progress := count_status (applyFilters (load_tasks [[("Status", Cell.str "Done")]]) [] [] []) "In Progress"
          done := count_status (applyFilters (load_tasks [[("Status", Cell.str "Done")]]) [] [] []) "Done"
          owners := vocabulary (load_tasks [[("Status", Cell.str "Done")]]) "Owner"
          projects := vocabulary (load_tasks [[("Status", Cell.str "Done")]]) "Project"
          statuses := vocabulary (load_tasks [[("Status", Cell.str "Done")]]) "Status"
          table_cols := display_cols (applyFilters (load_tasks [[("Status", Cell.str "Done")]]) [] [] [])
          table_rows := (applyFilters (load_tasks [[("Status", Cell.str "Done")]]) [] [] []).rows } :=
  ⟨by decide, c10_counters_over_filtered [[("Status", Cell.str "Done")]] [] [] [] (by decide)⟩

/-- C2: evaluation of the sort step at the failing input. Two rows with
equal Deadline keys load in the order a, b; the contract of
`sort_values(..., kind 'quicksort' by default)` — a permutation whose
keys are ascending with nulls last, with no stability promise — also
admits the swapped output b, a, which differs from the input order of
the tied rows. The claim's stable-sort requirement is therefore not
guaranteed by the code. -/
theorem c2_sort_contract_admits_unstable :
    (load_tasks
        [[("Task", Cell.str "a"), ("Deadline", Cell.str "2024-03-01")],
         [("Task", Cell.str "b"), ("Deadline", Cell.str "2024-03-01")]]).rows =
      [[("Task", Cell.str "a"), ("Deadline", Cell.date 20240301)],
       [("Task", Cell.str "b"), ("Deadline", Cell.date 20240301)]] ∧
    dateKey "Deadline" [("Task", Cell.str "a"), ("Deadline", Cell.date 20240301)] =
      dateKey "Deadline" [("Task", Cell.str "b"), ("Deadline", Cell.date 20240301)] ∧
    displaySorted
      (load_tasks
        [[("Task", Cell.str "a"), ("Deadline", Cell.str "2024-03-01")],
         [("Task", Cell.str "b"), ("Deadline", Cell.str "2024-03-01")]])
      [[("Task", Cell.str "b"), ("Deadline", Cell.date 20240301)],
       [("Task", Cell.str "a"), ("Deadline", Cell.date 20240301)]] ∧
    [[("Task", Cell.str "b"), ("Deadline", Cell.date 20240301)],
     [("Task", Cell.str "a"), ("Deadline", Cell.date 20240301)]] ≠
      (load_tasks
        [[("Task", Cell.str "a"), ("Deadline", Cell.str "2024-03-01")],
         [("Task", Cell.str "b"), ("Deadline", Cell.str "2024-03-01")]]).rows := by
  refine ⟨by decide, by decide, ?_, by decide⟩
  unfold displaySorted
  rw [show sort_col (display_cols
      (load_tasks
        [[("Task", Cell.str "a"), ("Deadline", Cell.str "2024-03-01")],
         [("Task", Cell.str "b"), ("Deadline", Cell.str "2024-03-01")]])) = some "Deadline"
    from by decide]
  constructor
  · rw [show (load_tasks
        [[("Task", Cell.str "a"), ("Deadline", Cell.str "2024-03-01")],
         [("Task", Cell.str "b"), ("Deadline", Cell.str "2024-03-01")]]).rows =
      [[("Task", Cell.str "a"), ("Deadline", Cell.date 20240301)],
       [("Task", Cell.str "b"), ("Deadline", Cell.date 20240301)]] from by decide]
    exact List.Perm.swap _ _ _
  · rw [List.chain'_cons]
    exact ⟨by decide, List.chain'_singleton _⟩

end TaskDashboard
